import Mathlib

/-!
Verification of the MACourts address-reconciliation scripts.

Shallow embedding of `scripts/validate_court_addresses.py` and
`scripts/apply_verified_address_updates.py`.  Python strings are modelled as
Lean `String`s (operating on their `List Char` data, restricted to the ASCII
behaviour of `str.strip` / `str.lower` / `re`'s `\s` class, which is all the
repository's data exercises); Python floats are modelled as exact rationals
(`ℚ`); Python dicts standing in for records are modelled as structures, with
an `Option` field where key-presence matters.  All definitions are
executable.
-/

/-! ## Text normalisation (`normalize_text` in both scripts) -/

/-- The characters matched by Python's `str.strip()` and by `re`'s `\s`
class on ASCII input. -/
def isPySpace (c : Char) : Bool :=
  c = ' ' || c = '\t' || c = '\n' || c = '\r' || c = '\x0b' || c = '\x0c'

/-- Drop trailing whitespace (the right half of Python's `str.strip()`). -/
def dropTrailWS : List Char → List Char
  | [] => []
  | c :: rest =>
    match dropTrailWS rest with
    | [] => if isPySpace c then [] else [c]
    | r => c :: r

/-- Python's `str.strip()` on a character list. -/
def stripL (l : List Char) : List Char :=
  dropTrailWS (l.dropWhile isPySpace)

/-- Python's `str.lower()` (ASCII). -/
def lowerL (l : List Char) : List Char :=
  l.map Char.toLower

/-- `re.sub(r"[\.,]", " ", value)`: every `.` or `,` becomes a space. -/
def subDotComma (l : List Char) : List Char :=
  l.map (fun c => if c = '.' || c = ',' then ' ' else c)

/-- Does the list start with a whitespace character? -/
def headIsSpace : List Char → Bool
  | [] => false
  | d :: _ => isPySpace d

/-- `re.sub(r"\s+", " ", value)`: each maximal whitespace run becomes one
space. -/
def collapseWS : List Char → List Char
  | [] => []
  | c :: rest =>
    let r := collapseWS rest
    if isPySpace c then (if headIsSpace r then r else ' ' :: r)
    else c :: r

/-- `normalize_text` from both scripts: strip, lowercase, turn `.`/`,` into
spaces, collapse whitespace runs. -/
def normalizeTextL (l : List Char) : List Char :=
  collapseWS (subDotComma (lowerL (stripL l)))

/-- `normalize_text` on `String`s. -/
def normalize_text (s : String) : String :=
  ⟨normalizeTextL s.data⟩

/-- Python's `str.strip()` on `String`s (used by the verified-address
parser, and to state what a second `normalize_text` application adds). -/
def strip_string (s : String) : String :=
  ⟨stripL s.data⟩

/-! ## Tokenisation, name and address normalisation -/

/-- Python's `str.split()` (no argument): split on whitespace runs, no empty
parts. -/
def splitWSL : List Char → List (List Char)
  | [] => []
  | c :: rest =>
    if isPySpace c then splitWSL rest
    else
      match rest, splitWSL rest with
      | d :: _, h :: t => if isPySpace d then [c] :: h :: t else (c :: h) :: t
      | _, _ => [[c]]

/-- `" ".join(tokens)`. -/
def joinSpace : List (List Char) → List Char
  | [] => []
  | [w] => w
  | w :: w2 :: ws => w ++ ' ' :: joinSpace (w2 :: ws)

/-- `NAME_STOPWORDS` from `validate_court_addresses.py`. -/
def NAME_STOPWORDS : List String :=
  ["the", "department", "division", "dept", "court", "courthouse",
   "municipal", "probate", "family"]

/-- `ADDRESS_ABBREVIATIONS` from `validate_court_addresses.py`. -/
def ADDRESS_ABBREVIATIONS : List (String × String) :=
  [("street", "st"), ("road", "rd"), ("avenue", "ave"), ("boulevard", "blvd"),
   ("drive", "dr"), ("court", "ct"), ("place", "pl"), ("square", "sq"),
   ("lane", "ln"), ("highway", "hwy"), ("route", "rt"), ("parkway", "pkwy"),
   ("circle", "cir"), ("center", "ctr"), ("mount", "mt")]

/-- `normalize_name`: normalise, drop stop-word tokens, re-join. -/
def normalize_name (value : String) : String :=
  ⟨joinSpace (((splitWSL (normalizeTextL value.data)).filter
      (fun w => (⟨w⟩ : String) ∉ NAME_STOPWORDS)))⟩

/-- `normalize_address`: normalise, abbreviate each token via the table,
re-join. -/
def normalize_address (value : String) : String :=
  ⟨joinSpace ((splitWSL (normalizeTextL value.data)).map
      (fun w => ((ADDRESS_ABBREVIATIONS.lookup (⟨w⟩ : String)).getD ⟨w⟩).data))⟩

/-! ## Substring test (Python's `in` on strings) -/

/-- `needle` is a prefix of `hay`. -/
def isPrefixL : List Char → List Char → Bool
  | [], _ => true
  | _ :: _, [] => false
  | a :: as_, b :: bs => a = b && isPrefixL as_ bs

/-- `needle in hay` for Python strings: `needle` occurs contiguously in
`hay` (the empty needle always occurs). -/
def hasSubstr : List Char → List Char → Bool
  | hay, needle =>
    isPrefixL needle hay ||
      match hay with
      | [] => false
      | _ :: t => hasSubstr t needle

example : hasSubstr "abcd".data "bc".data = true := by decide
example : hasSubstr "abcd".data "bd".data = false := by decide
example : hasSubstr "".data "".data = true := by decide

/-! ## `difflib.SequenceMatcher(None, a, b).ratio()` (`name_similarity`)

The DP of `SequenceMatcher.find_longest_match` (no junk; the autojunk
heuristic only fires on inputs of 200+ characters, which the normalised
court names never reach), followed by the recursive block decomposition of
`get_matching_blocks`, of which `ratio` only needs the total matched size. -/

/-- Indices (ascending) at which `c` occurs in `b`: `SequenceMatcher.b2j`. -/
def b2j (b : List Char) (c : Char) : List Nat :=
  (List.range b.length).filter (fun j => b.getD j ' ' = c)

/-- Inner loop of `find_longest_match`, over the occurrence indices `js` of
`a[i]` in `b`.  `j2len` is the previous row of the DP (as a total function,
zero outside its keys, mirroring `dict.get(j-1, 0)`); `newj2len` the row
being built; `best = (besti, bestj, bestsize)`. -/
def flmScanJ (blo bhi i : Nat) (j2len : Nat → Nat) :
    List Nat → (Nat → Nat) → Nat × Nat × Nat → ((Nat → Nat) × (Nat × Nat × Nat))
  | [], newj2len, best => (newj2len, best)
  | j :: rest, newj2len, best =>
    if j < blo then flmScanJ blo bhi i j2len rest newj2len best
    else if bhi ≤ j then (newj2len, best)
    else
      let k := (if j = 0 then 0 else j2len (j - 1)) + 1
      let newj2len' := fun j' => if j' = j then k else newj2len j'
      let best' := if k > best.2.2 then (i + 1 - k, j + 1 - k, k) else best
      flmScanJ blo bhi i j2len rest newj2len' best'

/-- Outer loop of `find_longest_match`, over `i` in `range(alo, ahi)`. -/
def flmScanI (a b : List Char) (blo bhi : Nat) :
    List Nat → (Nat → Nat) → Nat × Nat × Nat → Nat × Nat × Nat
  | [], _, best => best
  | i :: rest, j2len, best =>
    let p := flmScanJ blo bhi i j2len (b2j b (a.getD i ' ')) (fun _ => 0) best
    flmScanI a b blo bhi rest p.1 p.2

/-- `SequenceMatcher.find_longest_match(alo, ahi, blo, bhi)` (without junk
the trailing extension loops of the CPython source never move). -/
def find_longest_match (a b : List Char) (alo ahi blo bhi : Nat) :
    Nat × Nat × Nat :=
  flmScanI a b blo bhi (List.range' alo (ahi - alo)) (fun _ => 0) (alo, blo, 0)

/-- Total size of the matching blocks of `get_matching_blocks`, restricted
to the window `[alo,ahi) × [blo,bhi)`.  The `fuel` argument only bounds the
recursion depth; `(ahi - alo) + (bhi - blo)` strictly decreases at each
split, so any fuel above that is enough. -/
def matchTotal (a b : List Char) : Nat → Nat → Nat → Nat → Nat → Nat
  | 0, _, _, _, _ => 0
  | fuel + 1, alo, ahi, blo, bhi =>
    let m := find_longest_match a b alo ahi blo bhi
    if m.2.2 = 0 then 0
    else
      m.2.2 + matchTotal a b fuel alo m.1 blo m.2.1 +
        matchTotal a b fuel (m.1 + m.2.2) ahi (m.2.1 + m.2.2) bhi

/-- The integer data of `SequenceMatcher.ratio()`: total matched size and
`len(a) + len(b)`. -/
def simPair (a b : String) : ℕ × ℕ :=
  (matchTotal a.data b.data (a.data.length + b.data.length + 1) 0
    a.data.length 0 b.data.length,
   a.data.length + b.data.length)

/-- `name_similarity(a, b) = SequenceMatcher(None, a, b).ratio()`:
`2*matches/(len(a)+len(b))`, or `1.0` when both are empty. -/
def name_similarity (a b : String) : ℚ :=
  if (simPair a b).2 = 0 then 1
  else ((2 * (simPair a b).1 : ℕ) : ℚ) / (((simPair a b).2 : ℕ) : ℚ)

example : matchTotal "abcd".data "abcd".data 9 0 4 0 4 = 4 := by decide
example : matchTotal "abxd".data "abyd".data 9 0 4 0 4 = 3 := by decide
example : matchTotal "aaaa".data "zzzz".data 9 0 4 0 4 = 0 := by decide
set_option maxRecDepth 4000 in
example : matchTotal "worcester district".data "worcester district".data 37 0 18 0 18 = 18 := by decide

/-! ## Data model of `validate_court_addresses.py` -/

/-- `LocalCourt` (the fields of one local JSON entry used by the engine). -/
structure LocalCourt where
  source_file : String := ""
  name : String := ""
  court_code : String := ""
  tyler_code : String := ""
  phone : String := ""
  fax : String := ""
  has_po_box : Bool := false
  address1 : String := ""
  city : String := ""
  state : String := ""
  zip : String := ""
  county : String := ""
  orig_address : String := ""
deriving DecidableEq, Repr

/-- One entry of `MassGovLocation.addresses` (the dict built from a
`paragraph--address` node). -/
structure ExtAddress where
  address_line1 : String := ""
  address_line2 : String := ""
  city : String := ""
  state : String := ""
  postal_code : String := ""
  country : String := ""
deriving DecidableEq, Repr

/-- `MassGovLocation`.  `cities` is the set of normalised city names of its
addresses; only membership is ever consulted, so a list models the Python
set faithfully. -/
structure MassGovLocation where
  title : String := ""
  location_id : String := ""
  path_alias : Option String := none
  addresses : List ExtAddress := []
  cities : List String := []
deriving DecidableEq, Repr

/-- `candidate_locations`: keep the locations whose city set contains the
normalised local city; an empty filter result (in particular an empty
normalised city) falls back to the full list (`city_matches or
list(locations)`). -/
def candidate_locations (local_city : String) (locations : List MassGovLocation) :
    List MassGovLocation :=
  let normalized_city := normalize_text local_city
  let city_matches := locations.filter
    (fun loc => normalized_city ≠ "" ∧ normalized_city ∈ loc.cities)
  if city_matches = [] then locations else city_matches

/-- The address-bonus loop inside `find_best_match`'s candidate loop: scan
the candidate's addresses in order; the first address whose normalised
line1 is non-empty and equal to the normalised local line1 gives `+0.2`,
else the first whose non-empty normalised line1 is a substring of the
normalised `orig_address` (itself required to be truthy) gives `+0.15`;
`break` after either hit. -/
def addr_bonus (local_addr_norm orig_address : String) :
    List ExtAddress → Option ℚ
  | [] => none
  | a :: rest =>
    let addr_norm := normalize_address a.address_line1
    if addr_norm ≠ "" ∧ addr_norm = local_addr_norm then some (2/10)
    else if orig_address ≠ "" ∧ addr_norm ≠ "" ∧
        hasSubstr (normalize_address orig_address).data addr_norm.data then
      some (15/100)
    else addr_bonus local_addr_norm orig_address rest

/-- The body of `find_best_match`'s loop for one candidate: the score
(name similarity, city bonus, address bonus) together with the
`addr_match` and `city_match` flags. -/
def candidate_score (lc : LocalCourt) (loc : MassGovLocation) :
    ℚ × Bool × Bool :=
  let score := name_similarity (normalize_name lc.name) (normalize_name loc.title)
  let score := if normalize_text lc.city ≠ "" ∧ normalize_text lc.city ∈ loc.cities
    then score + 1/10 else score
  let city_match : Bool :=
    decide (normalize_text lc.city ≠ "" ∧ normalize_text lc.city ∈ loc.cities)
  match (if normalize_address lc.address1 ≠ "" then
      addr_bonus (normalize_address lc.address1) lc.orig_address loc.addresses
    else none) with
  | some b => (score + b, true, city_match)
  | none => (score, false, city_match)

/-- The running state of `find_best_match`'s loop
(`best, best_score, best_addr_match, best_city_match`). -/
structure MatchState where
  best : Option MassGovLocation := none
  best_score : ℚ := 0
  best_addr : Bool := false
  best_city : Bool := false

/-- One iteration of `find_best_match`'s loop: replace the running best
only on a strictly greater score. -/
def match_step (lc : LocalCourt) (st : MatchState) (loc : MassGovLocation) :
    MatchState :=
  let r := candidate_score lc loc
  if r.1 > st.best_score then ⟨some loc, r.1, r.2.1, r.2.2⟩ else st

/-- `find_best_match`: best-scoring candidate, with the sub-0.6 confidence
floor collapsing the result to `(None, 0.0, False, False)`. -/
def find_best_match (lc : LocalCourt) (locations : List MassGovLocation) :
    Option MassGovLocation × ℚ × Bool × Bool :=
  let st := locations.foldl (match_step lc) {}
  if st.best_score < 6/10 then (none, 0, false, false)
  else (st.best, st.best_score, st.best_addr, st.best_city)

/-- `recommend_action`: the decision table mapping the match result to
`(action, preferred_source, note)`. -/
def recommend_action (_lc : LocalCourt) (mtch : Option MassGovLocation)
    (score : ℚ) (addr_match city_match : Bool) : String × String × String :=
  match mtch with
  | none => ("review", "needs_manual", "No mass.gov location match")
  | some m =>
    if addr_match then ("no_change", "local", "Address matches mass.gov")
    else if score ≥ 8/10 ∧ city_match = true ∧ m.addresses ≠ [] then
      ("update_local_from_massgov", "massgov", "High-confidence name/city match")
    else ("verify_web", "needs_manual", "Name match without address confirmation")

/-- The fields of a manual-verification entry that feed the override logic
in `write_report` (`preferred_source`, `final_action`,
`verification_notes`; a missing key behaves as the empty string, matching
`manual.get(...)` on the `{}` default). -/
structure ManualVerification where
  preferred_source : String := ""
  final_action : String := ""
  verification_notes : String := ""
deriving DecidableEq, Repr

/-- The `(recommended_action, preferred_source, notes)` triple of the row
`write_report` emits for one local record: the heuristic pipeline
(candidate filter, best match, recommendation), then the truthiness-gated
manual overrides.  `manual = none` models an absent verification key. -/
def report_row_decision (lc : LocalCourt) (locations : List MassGovLocation)
    (manual : Option ManualVerification) : String × String × String :=
  let candidates := candidate_locations lc.city locations
  let r := find_best_match lc candidates
  let h := recommend_action lc r.1 r.2.1 r.2.2.1 r.2.2.2
  match manual with
  | none => h
  | some mv =>
    let preferred := if mv.preferred_source ≠ "" then mv.preferred_source else h.2.1
    let action := if mv.final_action ≠ "" then mv.final_action else h.1
    let note := if mv.verification_notes ≠ "" then mv.verification_notes else h.2.2
    (action, preferred, note)

/-- The reconciliation pipeline for one record, as composed in
`write_report`: candidate filter → best match → recommendation. -/
def pipeline (lc : LocalCourt) (locations : List MassGovLocation) :
    String × String × String :=
  let candidates := candidate_locations lc.city locations
  let r := find_best_match lc candidates
  recommend_action lc r.1 r.2.1 r.2.2.1 r.2.2.2

/-! ## `apply_verified_address_updates.py` -/

/-- `ParsedAddress` (dataclass with empty-string defaults). -/
structure ParsedAddress where
  building : String := ""
  address_line1 : String := ""
  unit : String := ""
deriving DecidableEq, Repr

/-- Python's `str.split(",")`: split at every comma, keeping empty pieces. -/
def splitCommaL : List Char → List (List Char)
  | [] => [[]]
  | c :: rest =>
    let r := splitCommaL rest
    if c = ',' then [] :: r
    else
      match r with
      | h :: t => (c :: h) :: t
      | [] => [[c]]

/-- `[part.strip() for part in address1.split(",") if part.strip()]`. -/
def vparts (address1 : String) : List String :=
  ((splitCommaL address1.data).map (fun p => (⟨stripL p⟩ : String))).filter
    (· ≠ "")

/-- `"courthouse" in parts[0].lower()`. -/
def containsCourthouse (p : String) : Bool :=
  hasSubstr (lowerL p.data) "courthouse".data

/-- The branch structure of `parse_verified_address` on the cleaned part
list.  `ParsedAddress(unit=existing_unit)` is allocated first, so branches
that never assign `unit` leave it at `existing_unit`. -/
def parse_core (parts : List String) (existing_unit : String) : ParsedAddress :=
  match parts with
  | [] => { unit := existing_unit }
  | [p0] => { address_line1 := p0, unit := existing_unit }
  | p0 :: p1 :: rest =>
    if containsCourthouse p0 then
      { building := p0, address_line1 := p1,
        unit := match rest with | [] => existing_unit | p2 :: _ => p2 }
    else
      { address_line1 := p0,
        unit := match rest with
          | [] => p1
          | _ :: _ => String.intercalate ", " (p1 :: rest) }

/-- `parse_verified_address(address1, existing_unit)`. -/
def parse_verified_address (address1 : String) (existing_unit : String := "") :
    ParsedAddress :=
  parse_core (vparts address1) existing_unit

/-- `build_orig_address`: rebuild the display string from the structured
fields. -/
def build_orig_address (building address_line1 unit address2 city state
    zip_code : String) : String :=
  let parts := [building, address_line1, unit, address2].filter (· ≠ "")
  let line := String.intercalate ", " parts
  let city_state := String.intercalate ", " ([city, state].filter (· ≠ ""))
  let city_state :=
    if zip_code ≠ "" then
      if city_state ≠ "" then city_state ++ " " ++ zip_code else zip_code
    else city_state
  if city_state ≠ "" then
    if line ≠ "" then line ++ ", " ++ city_state else city_state
  else line

/-- The `address` dict of a local court entry, as mutated by the apply
pass.  `unit` is an `Option` because `main` pops the key
(`addr.pop("unit", None)`) when the parse yields no unit. -/
structure AddrFields where
  address : String := ""
  unit : Option String := none
  city : String := ""
  state : String := ""
  zip : String := ""
  orig_address : String := ""
deriving DecidableEq, Repr

/-- The verified fields of one manual-verification entry consumed by the
apply pass. -/
structure VerInfo where
  verified_address1 : String := ""
  verified_address2 : String := ""
  verified_city : String := ""
  verified_state : String := ""
  verified_zip : String := ""
deriving DecidableEq, Repr

/-- The per-record merge in `main` of `apply_verified_address_updates.py`
(lines 156–185): parse the verified line against the existing unit,
overwrite `address`/`unit` only from non-empty parse output (popping the
unit key otherwise), take verified city/state/zip with `or`-fallback to the
prior values, recompute `has_po_box` and `orig_address`. -/
def apply_update (addr0 : AddrFields) (has_po_box : Bool) (info : VerInfo) :
    AddrFields × Bool :=
  let parsed := parse_verified_address info.verified_address1 (addr0.unit.getD "")
  let a1 := if parsed.address_line1 ≠ "" then
      { addr0 with address := parsed.address_line1 } else addr0
  let a2 := if parsed.unit ≠ "" then { a1 with unit := some parsed.unit }
    else { a1 with unit := none }
  let a3 := { a2 with
    city := if info.verified_city ≠ "" then info.verified_city else a2.city
    state := if info.verified_state ≠ "" then info.verified_state else a2.state
    zip := if info.verified_zip ≠ "" then info.verified_zip else a2.zip }
  let hpb := (info.verified_address2 ≠ "") || has_po_box
  let a4 := { a3 with
    orig_address := build_orig_address parsed.building a3.address
      (a3.unit.getD "") info.verified_address2 a3.city a3.state a3.zip }
  (a4, hpb)

example : parse_verified_address "Worcester Courthouse, 1 Main St, Room 4" "" =
    ⟨"Worcester Courthouse", "1 Main St", "Room 4"⟩ := by decide
example : parse_verified_address "1 Main St, Suite 2, Floor 3" "" =
    ⟨"", "1 Main St", "Suite 2, Floor 3"⟩ := by decide
example : parse_verified_address "" "Suite 5" = ⟨"", "", "Suite 5"⟩ := by decide
example : parse_verified_address "1 Main St" "Suite 5" =
    ⟨"", "1 Main St", "Suite 5"⟩ := by decide
example : build_orig_address "" "1 Main St" "Suite 2" "" "Boston" "MA" "02108" =
    "1 Main St, Suite 2, Boston, MA 02108" := by decide

example : normalize_text "  A.b,,C  d " = "a b c d" := by decide

/-! ## Structural lemmas about the text normaliser (for claim C4) -/

theorem toNat_ofNat_valid {n : Nat} (h : n.isValidChar) :
    (Char.ofNat n).toNat = n := by
  unfold Char.ofNat
  rw [dif_pos h]
  rfl

theorem toLower_idem (c : Char) : (Char.toLower c).toLower = Char.toLower c := by
  unfold Char.toLower
  by_cases h : c.toNat ≥ 65 ∧ c.toNat ≤ 90
  · rw [if_pos h]
    have hv : (Char.ofNat (c.toNat + 32)).toNat = c.toNat + 32 :=
      toNat_ofNat_valid (Or.inl (by omega))
    rw [if_neg (by rw [hv]; omega)]
  · rw [if_neg h, if_neg h]

/-- No two adjacent characters are both whitespace. -/
def noAdjSpaces : List Char → Bool
  | [] => true
  | [_] => true
  | a :: b :: t => !(isPySpace a && isPySpace b) && noAdjSpaces (b :: t)

theorem noAdjSpaces_tail {c : Char} {l : List Char}
    (h : noAdjSpaces (c :: l) = true) : noAdjSpaces l = true := by
  cases l with
  | nil => rfl
  | cons d t => exact (Bool.and_eq_true_iff.mp h).2

theorem mem_collapseWS {c : Char} {l : List Char} (h : c ∈ collapseWS l) :
    c = ' ' ∨ c ∈ l := by
  induction l with
  | nil => simp [collapseWS] at h
  | cons a t ih =>
    simp only [collapseWS] at h
    by_cases ha : isPySpace a = true
    · rw [if_pos ha] at h
      by_cases hh : headIsSpace (collapseWS t) = true
      · rw [if_pos hh] at h
        rcases ih h with h' | h'
        · exact Or.inl h'
        · exact Or.inr (List.mem_cons_of_mem _ h')
      · rw [if_neg hh] at h
        rcases List.mem_cons.mp h with h' | h'
        · exact Or.inl h'
        · rcases ih h' with h'' | h''
          · exact Or.inl h''
          · exact Or.inr (List.mem_cons_of_mem _ h'')
    · rw [if_neg ha] at h
      rcases List.mem_cons.mp h with h' | h'
      · exact Or.inr (h' ▸ List.mem_cons_self a t)
      · rcases ih h' with h'' | h''
        · exact Or.inl h''
        · exact Or.inr (List.mem_cons_of_mem _ h'')

theorem space_mem_collapseWS {c : Char} {l : List Char} (h : c ∈ collapseWS l)
    (hs : isPySpace c = true) : c = ' ' := by
  induction l with
  | nil => simp [collapseWS] at h
  | cons a t ih =>
    simp only [collapseWS] at h
    by_cases ha : isPySpace a = true
    · rw [if_pos ha] at h
      by_cases hh : headIsSpace (collapseWS t) = true
      · rw [if_pos hh] at h
        exact ih h
      · rw [if_neg hh] at h
        rcases List.mem_cons.mp h with h' | h'
        · exact h'
        · exact ih h'
    · rw [if_neg ha] at h
      rcases List.mem_cons.mp h with h' | h'
      · rw [h'] at hs
        exact absurd hs (by simp [ha])
      · exact ih h'

theorem noAdjSpaces_collapseWS (l : List Char) :
    noAdjSpaces (collapseWS l) = true := by
  induction l with
  | nil => rfl
  | cons a t ih =>
    simp only [collapseWS]
    by_cases ha : isPySpace a = true
    · rw [if_pos ha]
      by_cases hh : headIsSpace (collapseWS t) = true
      · rw [if_pos hh]
        exact ih
      · rw [if_neg hh]
        rcases hr : collapseWS t with _ | ⟨d, r⟩
        · rfl
        · rw [hr] at hh ih
          simp only [headIsSpace, Bool.not_eq_true] at hh
          simp [noAdjSpaces, hh, ih]
    · rw [if_neg ha]
      rcases hr : collapseWS t with _ | ⟨d, r⟩
      · rfl
      · rw [hr] at ih
        simp [noAdjSpaces, ha, ih]

theorem collapseWS_fixed {l : List Char}
    (hsp : ∀ c ∈ l, isPySpace c = true → c = ' ')
    (hadj : noAdjSpaces l = true) : collapseWS l = l := by
  induction l with
  | nil => rfl
  | cons a t ih =>
    have ht : collapseWS t = t :=
      ih (fun c hc => hsp c (List.mem_cons_of_mem _ hc)) (noAdjSpaces_tail hadj)
    simp only [collapseWS, ht]
    by_cases ha : isPySpace a = true
    · rw [if_pos ha]
      have ha' : a = ' ' := hsp a (List.mem_cons_self a t) ha
      cases t with
      | nil => simp [headIsSpace, ha']
      | cons d r =>
        have hd : isPySpace d = false := by
          have h1 := (Bool.and_eq_true_iff.mp hadj).1
          rcases (by simpa using h1 : isPySpace a = false ∨ isPySpace d = false)
            with h' | h'
          · rw [ha] at h'; cases h'
          · exact h'
        rw [if_neg (by simp [headIsSpace, hd]), ha']
    · rw [if_neg ha]

theorem mem_dropTrailWS {c : Char} {l : List Char} (h : c ∈ dropTrailWS l) :
    c ∈ l := by
  induction l with
  | nil => simp [dropTrailWS] at h
  | cons a t ih =>
    simp only [dropTrailWS] at h
    rcases hr : dropTrailWS t with _ | ⟨d, r⟩
    · rw [hr] at h
      by_cases ha : isPySpace a = true
      · rw [if_pos ha] at h
        cases h
      · rw [if_neg ha] at h
        rcases List.mem_cons.mp h with h' | h'
        · exact h' ▸ List.mem_cons_self a t
        · cases h'
    · rw [hr] at h
      rcases List.mem_cons.mp h with h' | h'
      · exact h' ▸ List.mem_cons_self a t
      · exact List.mem_cons_of_mem _ (ih (by rw [hr]; exact h'))

theorem head_dropTrailWS {l r : List Char} {d : Char}
    (h : dropTrailWS l = d :: r) : ∃ t, l = d :: t := by
  cases l with
  | nil => cases h
  | cons a t =>
    refine ⟨t, ?_⟩
    simp only [dropTrailWS] at h
    rcases hr : dropTrailWS t with _ | ⟨e, s⟩
    · rw [hr] at h
      by_cases ha : isPySpace a = true
      · rw [if_pos ha] at h
        cases h
      · rw [if_neg ha] at h
        injection h with h1 _
        rw [h1]
    · rw [hr] at h
      injection h with h1 _
      rw [h1]

theorem noAdjSpaces_dropTrailWS {l : List Char} (h : noAdjSpaces l = true) :
    noAdjSpaces (dropTrailWS l) = true := by
  induction l with
  | nil => exact h
  | cons a t ih =>
    simp only [dropTrailWS]
    rcases hr : dropTrailWS t with _ | ⟨d, r⟩
    · by_cases ha : isPySpace a = true
      · rw [if_pos ha]; rfl
      · rw [if_neg ha]; rfl
    · have hdr : noAdjSpaces (d :: r) = true := hr ▸ ih (noAdjSpaces_tail h)
      obtain ⟨t0, ht0⟩ := head_dropTrailWS hr
      have hrel : (!(isPySpace a && isPySpace d)) = true := by
        rw [ht0] at h
        exact (Bool.and_eq_true_iff.mp h).1
      simp [noAdjSpaces, hrel, hdr]

theorem mem_dropWhileWS {c : Char} {l : List Char}
    (h : c ∈ l.dropWhile isPySpace) : c ∈ l :=
  (List.dropWhile_sublist isPySpace (l := l)).mem h

theorem noAdjSpaces_dropWhileWS {l : List Char} (h : noAdjSpaces l = true) :
    noAdjSpaces (l.dropWhile isPySpace) = true := by
  induction l with
  | nil => exact h
  | cons a t ih =>
    rw [List.dropWhile_cons]
    by_cases ha : isPySpace a = true
    · rw [if_pos ha]
      exact ih (noAdjSpaces_tail h)
    · rw [if_neg ha]
      exact h

theorem mem_stripL {c : Char} {l : List Char} (h : c ∈ stripL l) : c ∈ l :=
  mem_dropWhileWS (mem_dropTrailWS h)

theorem noAdjSpaces_stripL {l : List Char} (h : noAdjSpaces l = true) :
    noAdjSpaces (stripL l) = true :=
  noAdjSpaces_dropTrailWS (noAdjSpaces_dropWhileWS h)

theorem subDotComma_fixed {l : List Char}
    (h : ∀ c ∈ l, c ≠ '.' ∧ c ≠ ',') : subDotComma l = l := by
  unfold subDotComma
  rw [List.map_congr_left (g := id) (fun c hc => ?_), List.map_id]
  rcases h c hc with ⟨h1, h2⟩
  simp [h1, h2]

theorem lowerL_fixed {l : List Char}
    (h : ∀ c ∈ l, Char.toLower c = c) : lowerL l = l := by
  unfold lowerL
  rw [List.map_congr_left (g := id) (fun c hc => h c hc), List.map_id]

/-- Every character of a normalised string is whitespace-normalised: the
only whitespace it can contain is a plain space. -/
theorem normalizeTextL_space {c : Char} {l : List Char}
    (h : c ∈ normalizeTextL l) (hs : isPySpace c = true) : c = ' ' :=
  space_mem_collapseWS h hs

/-- Every character of a normalised string is lowercase-fixed. -/
theorem normalizeTextL_lower {c : Char} {l : List Char}
    (h : c ∈ normalizeTextL l) : Char.toLower c = c := by
  rcases mem_collapseWS h with h' | h'
  · rw [h']; rfl
  · rcases List.mem_map.mp h' with ⟨d, hd, hdc⟩
    by_cases hcond : d = '.' || d = ','
    · have he : (if d = '.' || d = ',' then ' ' else d) = ' ' := if_pos hcond
      rw [← hdc, he]; rfl
    · have he : (if d = '.' || d = ',' then ' ' else d) = d := if_neg hcond
      rw [← hdc, he]
      rcases List.mem_map.mp hd with ⟨e, _, hed⟩
      rw [← hed]
      exact toLower_idem e

/-- A normalised string contains no dots or commas. -/
theorem normalizeTextL_nodot {c : Char} {l : List Char}
    (h : c ∈ normalizeTextL l) : c ≠ '.' ∧ c ≠ ',' := by
  rcases mem_collapseWS h with h' | h'
  · rw [h']; exact ⟨by decide, by decide⟩
  · rcases List.mem_map.mp h' with ⟨d, _, hdc⟩
    by_cases hcond : d = '.' || d = ','
    · rw [← hdc, if_pos hcond]
      exact ⟨by decide, by decide⟩
    · rw [← hdc, if_neg hcond]
      simp only [Bool.or_eq_true, decide_eq_true_eq] at hcond
      push_neg at hcond
      exact hcond

/-- Claim C4, as stated, is false: a second application of `normalize_text`
is exactly a `strip` of the first (claim_C4_amended); the two differ when
the first application leaves a leading or trailing space, which happens when
the stripped input starts or ends with `.` or `,`. -/
theorem normalizeTextL_normalizeTextL (l : List Char) :
    normalizeTextL (normalizeTextL l) = stripL (normalizeTextL l) := by
  have hsp : ∀ c ∈ stripL (normalizeTextL l), isPySpace c = true → c = ' ' :=
    fun c hc => normalizeTextL_space (mem_stripL hc)
  have hlow : lowerL (stripL (normalizeTextL l)) = stripL (normalizeTextL l) :=
    lowerL_fixed (fun c hc => normalizeTextL_lower (mem_stripL hc))
  have hdot : subDotComma (stripL (normalizeTextL l)) = stripL (normalizeTextL l) :=
    subDotComma_fixed (fun c hc => normalizeTextL_nodot (mem_stripL hc))
  have hadj : noAdjSpaces (stripL (normalizeTextL l)) = true :=
    noAdjSpaces_stripL (noAdjSpaces_collapseWS _)
  calc normalizeTextL (normalizeTextL l)
      = collapseWS (subDotComma (lowerL (stripL (normalizeTextL l)))) := rfl
    _ = collapseWS (stripL (normalizeTextL l)) := by rw [hlow, hdot]
    _ = stripL (normalizeTextL l) := collapseWS_fixed hsp hadj

example : normalize_text "." = " " := by decide
example : normalize_text " " = "" := by decide
example : normalize_name "Boston Municipal Court" = "boston" := by decide
example : normalize_address "123 Main Street" = "123 main st" := by decide
example : normalize_address "123 MAIN ST." = "123 main st" := by decide
example : normalize_address "." = "" := by decide
example : normalize_name "Worcester District Court" = "worcester district" := by decide

/-! ## Claim C4 -/

/-- Claim C4 (counterexample): `normalize_text` is not idempotent.  On `"."`
the first application strips first and only then turns the dot into a
space, yielding `" "`; the second application strips that space away. -/
theorem claim_C4_counterexample :
    normalize_text (normalize_text ".") ≠ normalize_text "." := by decide

/-- Claim C4 (amended): `normalize_text` is idempotent only up to a final
strip.  Applying it twice equals stripping the result of applying it once;
the two differ exactly when one application leaves a leading or trailing
space, which happens when the stripped input starts or ends with a `.` or
`,` (these are replaced by spaces only after the strip). -/
theorem claim_C4_amended (s : String) :
    normalize_text (normalize_text s) = strip_string (normalize_text s) :=
  congrArg String.mk (normalizeTextL_normalizeTextL s.data)

/-! ## Claim C2 -/

/-- Claim C2 (counterexample): `parse_verified_address` allocates
`ParsedAddress(unit=existing_unit)` before branching, so both the zero-part
and the one-part early returns keep the caller-supplied existing unit
rather than discarding it. -/
theorem claim_C2_counterexample :
    (parse_verified_address "" "Suite 5").unit = "Suite 5" ∧
    (parse_verified_address "1 Main St" "Suite 5").unit = "Suite 5" ∧
    (parse_verified_address "" "Suite 5").unit ≠ "" ∧
    (parse_verified_address "1 Main St" "Suite 5").unit ≠ "" := by decide

/-- Claim C2 (amended): with zero non-empty comma-parts the parse returns
empty `building`/`line1` and `unit = existingUnit` (preserved, not
discarded); with exactly one part it returns that part as `line1`, empty
`building`, and again `unit = existingUnit`. -/
theorem claim_C2_amended (s eu : String) :
    (vparts s = [] →
      parse_verified_address s eu = { unit := eu }) ∧
    (∀ p, vparts s = [p] →
      parse_verified_address s eu = { address_line1 := p, unit := eu }) := by
  constructor
  · intro h
    rw [parse_verified_address, h]
    rfl
  · intro p h
    rw [parse_verified_address, h]
    rfl

/-- Witness for claim C2 (amended), at an empty and a one-part verified
line. -/
theorem claim_C2_amended_witness :
    parse_verified_address "" "u" = { unit := "u" } ∧
    parse_verified_address " 1 Main St " "u" =
      { address_line1 := "1 Main St", unit := "u" } :=
  ⟨(claim_C2_amended "" "u").1 (by decide),
   (claim_C2_amended " 1 Main St " "u").2 "1 Main St" (by decide)⟩

/-! ## Claim C8 -/

/-- Claim C8 (confirmed): with two or more non-empty comma-parts, a first
part containing "courthouse" (case-insensitively) becomes `building`, the
second part `line1`, a third part (when present) `unit`, and parts beyond
the third are dropped; otherwise the first part becomes `line1` and the
second `unit`, except that with three or more parts `unit` is all parts
from index 1 rejoined with ", ". -/
theorem claim_C8_two_or_more_parts (s eu p0 p1 : String) (rest : List String)
    (h : vparts s = p0 :: p1 :: rest) :
    (containsCourthouse p0 = true →
      (parse_verified_address s eu).building = p0 ∧
      (parse_verified_address s eu).address_line1 = p1 ∧
      (∀ p2 r, rest = p2 :: r → (parse_verified_address s eu).unit = p2)) ∧
    (containsCourthouse p0 = false →
      (parse_verified_address s eu).address_line1 = p0 ∧
      (rest = [] → (parse_verified_address s eu).unit = p1) ∧
      (rest ≠ [] →
        (parse_verified_address s eu).unit =
          String.intercalate ", " (p1 :: rest))) := by
  rw [parse_verified_address, h]
  constructor
  · intro hc
    refine ⟨?_, ?_, ?_⟩
    · simp [parse_core, hc]
    · simp [parse_core, hc]
    · intro p2 r hr
      subst hr
      simp [parse_core, hc]
  · intro hc
    refine ⟨?_, ?_, ?_⟩
    · simp [parse_core, hc]
    · intro hr
      subst hr
      simp [parse_core, hc]
    · intro hr
      cases rest with
      | nil => exact absurd rfl hr
      | cons p2 r => simp [parse_core, hc]

/-- Witness for claim C8, on a courthouse-prefixed three-part line and a
plain three-part line. -/
theorem claim_C8_witness :
    (parse_verified_address "Worcester Courthouse, 1 Main St, Room 4" "").unit
      = "Room 4" ∧
    (parse_verified_address "1 Main St, Suite 2, Floor 3" "").unit
      = "Suite 2, Floor 3" := by
  constructor
  · exact ((claim_C8_two_or_more_parts
      "Worcester Courthouse, 1 Main St, Room 4" "" "Worcester Courthouse"
      "1 Main St" ["Room 4"] (by decide)).1 (by decide)).2.2 "Room 4" [] rfl
  · have h := ((claim_C8_two_or_more_parts "1 Main St, Suite 2, Floor 3" ""
      "1 Main St" "Suite 2" ["Floor 3"] (by decide)).2 (by decide)).2.2
      (by decide)
    rw [h]
    decide

/-! ## Claim C9 -/

/-- Claim C9 (confirmed): the apply-time merge never fabricates a
structured field.  An empty verified city/state/zip keeps the prior value;
an empty parsed `line1` keeps the prior address line; an empty verified
address string keeps both the address line and (the value of) the unit. -/
theorem claim_C9_merge_never_fabricates (addr0 : AddrFields) (hpb : Bool)
    (info : VerInfo) :
    (info.verified_city = "" →
      ((apply_update addr0 hpb info).1).city = addr0.city) ∧
    (info.verified_state = "" →
      ((apply_update addr0 hpb info).1).state = addr0.state) ∧
    (info.verified_zip = "" →
      ((apply_update addr0 hpb info).1).zip = addr0.zip) ∧
    ((parse_verified_address info.verified_address1
        (addr0.unit.getD "")).address_line1 = "" →
      ((apply_update addr0 hpb info).1).address = addr0.address) ∧
    (info.verified_address1 = "" →
      ((apply_update addr0 hpb info).1).address = addr0.address ∧
      ((apply_update addr0 hpb info).1).unit.getD "" = addr0.unit.getD "") := by
  refine ⟨?_, ?_, ?_, ?_, ?_⟩
  · intro h
    simp only [apply_update, h]
    repeat' split
    all_goals simp_all
  · intro h
    simp only [apply_update, h]
    repeat' split
    all_goals simp_all
  · intro h
    simp only [apply_update, h]
    repeat' split
    all_goals simp_all
  · intro h
    simp only [apply_update, h]
    repeat' split
    all_goals simp_all
  · intro h
    have hp : parse_verified_address info.verified_address1 (addr0.unit.getD "")
        = { unit := addr0.unit.getD "" } := by
      rw [h]
      rfl
    constructor
    · simp only [apply_update, hp]
      repeat' split
      all_goals simp_all
    · simp only [apply_update, hp]
      by_cases hu : addr0.unit.getD "" = ""
      · simp [hu]
      · simp [hu]

/-- A concrete prior address for the claim C9 witness. -/
def priorAddr : AddrFields :=
  { address := "1 Old St", unit := some "Rm 2", city := "Boston",
    state := "MA", zip := "02108" }

/-- Witness for claim C9: an all-empty verification entry leaves the
record's structured address untouched. -/
theorem claim_C9_witness :
    ((apply_update priorAddr false {}).1).city = "Boston" ∧
    ((apply_update priorAddr false {}).1).address = "1 Old St" ∧
    ((apply_update priorAddr false {}).1).unit.getD "" = "Rm 2" := by
  refine ⟨(claim_C9_merge_never_fabricates _ false {}).1 rfl, ?_, ?_⟩
  · exact ((claim_C9_merge_never_fabricates _ false {}).2.2.2.2 rfl).1
  · exact ((claim_C9_merge_never_fabricates _ false {}).2.2.2.2 rfl).2

/-! ## Claim C7 -/

/-- Claim C7 (confirmed): on a non-empty location list the candidate filter
never returns an empty list; it returns the city-filtered sublist when that
is non-empty, and falls back to the whole list when the filter is empty —
in particular whenever the local city normalises to the empty string. -/
theorem claim_C7_candidate_filter (city : String)
    (locs : List MassGovLocation) (h : locs ≠ []) :
    candidate_locations city locs ≠ [] ∧
    (∀ loc ∈ candidate_locations city locs, loc ∈ locs) ∧
    (normalize_text city = "" → candidate_locations city locs = locs) ∧
    (locs.filter
        (fun loc => normalize_text city ≠ "" ∧ normalize_text city ∈ loc.cities)
        ≠ [] →
      candidate_locations city locs = locs.filter
        (fun loc => normalize_text city ≠ "" ∧ normalize_text city ∈ loc.cities)) ∧
    (locs.filter
        (fun loc => normalize_text city ≠ "" ∧ normalize_text city ∈ loc.cities)
        = [] →
      candidate_locations city locs = locs) := by
  by_cases hf : locs.filter
      (fun loc => normalize_text city ≠ "" ∧ normalize_text city ∈ loc.cities)
      = []
  · have he : candidate_locations city locs = locs := by
      simp only [candidate_locations]
      rw [if_pos hf]
    refine ⟨by rw [he]; exact h, fun loc hl => by rw [he] at hl; exact hl,
      fun _ => he, fun hne => absurd hf hne, fun _ => he⟩
  · have he : candidate_locations city locs = locs.filter
        (fun loc => normalize_text city ≠ "" ∧ normalize_text city ∈ loc.cities) := by
      simp only [candidate_locations]
      rw [if_neg hf]
    refine ⟨by rw [he]; exact hf,
      fun loc hl => List.mem_of_mem_filter (by rw [he] at hl; exact hl), ?_,
      fun _ => he, fun hemp => absurd hemp hf⟩
    intro hcity
    exact absurd (by simp [hcity] : locs.filter
      (fun loc => normalize_text city ≠ "" ∧ normalize_text city ∈ loc.cities)
      = []) hf

/-- Witness for claim C7: a two-location list with one city match. -/
theorem claim_C7_witness :
    candidate_locations "Boston"
      [{ title := "A", cities := ["boston"] }, { title := "B", cities := [] }]
      ≠ [] ∧
    candidate_locations "Boston"
      [{ title := "A", cities := ["boston"] }, { title := "B", cities := [] }]
      = [{ title := "A", cities := ["boston"] }] := by
  constructor
  · exact (claim_C7_candidate_filter "Boston" _ (by decide)).1
  · have h := (claim_C7_candidate_filter "Boston"
      [{ title := "A", cities := ["boston"] }, { title := "B", cities := [] }]
      (by decide)).2.2.2.1 (by decide)
    rw [h]
    decide

/-! ## Claim C5 -/

/-- Claim C5 (confirmed): whenever the running maximum score of
`find_best_match`'s scan ends below 0.6, the function returns
`(None, 0.0, False, False)` — the flags are wiped even if a city or address
bonus contributed — and `recommend_action` maps the no-match result to the
`review` action, not to an error. -/
theorem claim_C5_confidence_floor (lc : LocalCourt)
    (locs : List MassGovLocation)
    (h : (locs.foldl (match_step lc)
        ⟨none, 0, false, false⟩).best_score < 6/10) :
    find_best_match lc locs = (none, 0, false, false) ∧
    (∀ (score : ℚ) (am cm : Bool),
      recommend_action lc none score am cm =
        ("review", "needs_manual", "No mass.gov location match")) := by
  constructor
  · simp only [find_best_match]
    rw [if_pos h]
  · intro score am cm
    rfl

/-- Witness for claim C5: an empty candidate list leaves the initial score
`0.0 < 0.6`. -/
theorem claim_C5_witness :
    find_best_match {} [] = (none, 0, false, false) ∧
    recommend_action {} none 0 false false =
      ("review", "needs_manual", "No mass.gov location match") := by
  have h : (([] : List MassGovLocation).foldl (match_step {})
      ⟨none, 0, false, false⟩).best_score < 6/10 := by
    show (0 : ℚ) < 6/10
    norm_num
  exact ⟨(claim_C5_confidence_floor {} [] h).1,
    (claim_C5_confidence_floor {} [] h).2 0 false false⟩

/-! ## Claim C3 -/

/-- `find_best_match` on an empty candidate list: nothing beats the initial
score `0.0`, which is below the floor. -/
theorem find_best_match_nil (lc : LocalCourt) :
    find_best_match lc [] = (none, 0, false, false) := by
  simp only [find_best_match, List.foldl_nil]
  rw [if_pos (show (0 : ℚ) < 6/10 by norm_num)]

/-- Claim C3 (counterexample): the manual override is gated on truthiness,
not on key presence.  A present `VerificationRecord` whose
`preferred_source` / `final_action` / `verification_notes` are empty does
not replace the heuristic values: here the heuristic `needs_manual` wins
over the record's empty `preferred_source`. -/
theorem claim_C3_counterexample :
    (report_row_decision {} [] (some {})).2.1 = "needs_manual" ∧
    (report_row_decision {} [] (some {})).2.1 ≠
      ({} : ManualVerification).preferred_source := by
  have h : report_row_decision {} [] (some {}) =
      ("review", "needs_manual", "No mass.gov location match") := by
    simp only [report_row_decision]
    rw [show candidate_locations ({} : LocalCourt).city [] = [] from rfl,
      find_best_match_nil]
    rfl
  rw [h]
  exact ⟨rfl, by decide⟩

/-- Claim C3 (amended): the `VerificationRecord` override replaces
`preferred_source`, `recommended_action` and `notes` only field-wise when
the corresponding verification field is non-empty; when all three are
non-empty the reported triple is exactly the record's
`(final_action, preferred_source, verification_notes)`. -/
theorem claim_C3_amended (lc : LocalCourt) (locs : List MassGovLocation)
    (mv : ManualVerification) (h1 : mv.preferred_source ≠ "")
    (h2 : mv.final_action ≠ "") (h3 : mv.verification_notes ≠ "") :
    report_row_decision lc locs (some mv) =
      (mv.final_action, mv.preferred_source, mv.verification_notes) := by
  simp only [report_row_decision, if_pos h1, if_pos h2, if_pos h3]

/-- Witness for claim C3 (amended). -/
theorem claim_C3_amended_witness :
    report_row_decision {} [] (some ⟨"a", "b", "c"⟩) = ("b", "a", "c") :=
  claim_C3_amended {} [] ⟨"a", "b", "c"⟩ (by decide) (by decide) (by decide)

/-! ## Claim C10 -/

/-- Claim C10 (confirmed): when the local line1 normalises to the empty
string, the `if local_addr_norm:` gate skips the address loop entirely, so
no candidate ever gets an address bonus and `find_best_match` reports
`addressMatched = false` — even if a candidate line1 is a substring of the
record's display address.  Likewise the `+0.15` substring bonus requires a
truthy `orig_address`. -/
theorem claim_C10_empty_line1_no_bonus (lc : LocalCourt)
    (locs : List MassGovLocation) (h : normalize_address lc.address1 = "") :
    (∀ loc, (candidate_score lc loc).2.1 = false) ∧
    (find_best_match lc locs).2.2.1 = false ∧
    (∀ (lan : String) (addrs : List ExtAddress),
      addr_bonus lan "" addrs ≠ some (15/100)) := by
  have h1 : ∀ loc, (candidate_score lc loc).2.1 = false := by
    intro loc
    simp only [candidate_score, h]
    norm_num
  refine ⟨h1, ?_, ?_⟩
  · have h2 : ∀ (L : List MassGovLocation) (st : MatchState),
        st.best_addr = false → (L.foldl (match_step lc) st).best_addr = false := by
      intro L
      induction L with
      | nil => exact fun st hst => hst
      | cons x xs ih =>
        intro st hst
        rw [List.foldl_cons]
        apply ih
        simp only [match_step]
        split
        · exact h1 x
        · exact hst
    simp only [find_best_match]
    split
    · rfl
    · exact h2 locs ⟨none, 0, false, false⟩ rfl
  · intro lan addrs
    induction addrs with
    | nil => simp [addr_bonus]
    | cons a t ih =>
      simp only [addr_bonus]
      split
      · intro hc
        exact absurd (Option.some.inj hc) (by norm_num)
      · split
        · rename_i hcond
          exact absurd rfl hcond.1
        · exact ih

/-- Witness for claim C10: the local record has an empty line1 but a
display address of which the candidate's line1 is a substring; still no
address match. -/
theorem claim_C10_witness :
    (candidate_score { name := "x", address1 := "", orig_address := "1 Main St extra" }
      { title := "x", addresses := [{ address_line1 := "1 Main St" }] }).2.1 = false ∧
    addr_bonus "1 main st" "" [{ address_line1 := "1 Main St" }] ≠ some (15/100) :=
  ⟨(claim_C10_empty_line1_no_bonus
      { name := "x", address1 := "", orig_address := "1 Main St extra" } []
      (by decide)).1
    { title := "x", addresses := [{ address_line1 := "1 Main St" }] },
   (claim_C10_empty_line1_no_bonus
      { name := "x", address1 := "", orig_address := "1 Main St extra" } []
      (by decide)).2.2 "1 main st" [{ address_line1 := "1 Main St" }]⟩

/-! ## Claim C6 -/

/-- The condition under which the address loop of `find_best_match` stops at
an address: exact normalised-line1 equality (with a non-empty candidate
line1), or the substring condition against the normalised `orig_address`. -/
def addr_hit (lan orig : String) (a : ExtAddress) : Bool :=
  decide ((normalize_address a.address_line1 ≠ "" ∧
      normalize_address a.address_line1 = lan) ∨
    (orig ≠ "" ∧ normalize_address a.address_line1 ≠ "" ∧
      hasSubstr (normalize_address orig).data
        (normalize_address a.address_line1).data = true))

/-- The sequential break-on-first-hit loop is the `find?` of `addr_hit`,
with the bonus determined by which branch the found address satisfies. -/
theorem addr_bonus_eq_find (lan orig : String) (addrs : List ExtAddress) :
    addr_bonus lan orig addrs =
      (addrs.find? (addr_hit lan orig)).map
        (fun a => if normalize_address a.address_line1 = lan then (2/10 : ℚ)
          else 15/100) := by
  induction addrs with
  | nil => rfl
  | cons a t ih =>
    simp only [addr_bonus]
    by_cases h1 : normalize_address a.address_line1 ≠ "" ∧
        normalize_address a.address_line1 = lan
    · rw [if_pos h1, List.find?_cons_of_pos _
        (by simp only [addr_hit, decide_eq_true_eq]; exact Or.inl h1)]
      simp [h1.2]
    · rw [if_neg h1]
      by_cases h2 : orig ≠ "" ∧ normalize_address a.address_line1 ≠ "" ∧
          hasSubstr (normalize_address orig).data
            (normalize_address a.address_line1).data = true
      · rw [if_pos h2, List.find?_cons_of_pos _
          (by simp only [addr_hit, decide_eq_true_eq]; exact Or.inr h2)]
        have hne : ¬(normalize_address a.address_line1 = lan) :=
          fun he => h1 ⟨h2.2.1, he⟩
        simp [hne]
      · rw [if_neg h2, List.find?_cons_of_neg _
          (by simp only [addr_hit, decide_eq_true_eq, not_or]; exact ⟨h1, h2⟩)]
        exact ih

/-- The bonus-triggering condition exactly as claim C6 words it: no gate on
the local line1, and no non-emptiness requirement in the exact-equality
branch. -/
def claim_C6_bonus_hit (lan orig : String) (a : ExtAddress) : Bool :=
  decide (normalize_address a.address_line1 = lan ∨
    (normalize_address a.address_line1 ≠ "" ∧
      hasSubstr (normalize_address orig).data
        (normalize_address a.address_line1).data = true))

/-- The per-candidate score formula exactly as claim C6 states it. -/
def claim_C6_score (lc : LocalCourt) (loc : MassGovLocation) : ℚ :=
  name_similarity (normalize_name lc.name) (normalize_name loc.title)
  + (if normalize_text lc.city ≠ "" ∧ normalize_text lc.city ∈ loc.cities
      then (1/10 : ℚ) else 0)
  + (loc.addresses.find?
      (claim_C6_bonus_hit (normalize_address lc.address1) lc.orig_address)).elim
      (0 : ℚ)
      (fun a => if normalize_address a.address_line1 =
        normalize_address lc.address1 then 2/10 else 15/100)

/-- A local record whose line1 normalises to empty, against a location with
one blank address: the code awards no bonus, the claimed formula awards the
exact-equality bonus for `"" = ""`. -/
def cxLocal : LocalCourt := { name := "a" }

/-- The blank-address location of the C6 counterexample. -/
def cxLoc : MassGovLocation := { title := "a", addresses := [{}] }

/-- A pair whose score exceeds 1: identical names, matching city, exact
address hit. -/
def exLocal : LocalCourt :=
  { name := "a", city := "c", address1 := "b Street", orig_address := "b Street" }

/-- The candidate of the exceeds-one example. -/
def exLoc : MassGovLocation :=
  { title := "a", cities := ["c"], addresses := [{ address_line1 := "b St" }] }

theorem name_similarity_a_a : name_similarity "a" "a" = 1 := by
  simp only [name_similarity]
  rw [show simPair "a" "a" = (1, 2) from by decide]
  norm_num

/-- Claim C6 (counterexample): the claimed score formula omits the
`if local_addr_norm:` gate.  For a record whose line1 normalises to the
empty string and a candidate with a blank line1, the claimed formula awards
`+0.2` (for `"" = ""`), the code awards nothing. -/
theorem claim_C6_counterexample :
    (candidate_score cxLocal cxLoc).1 ≠ claim_C6_score cxLocal cxLoc := by
  have hsim : name_similarity (normalize_name cxLocal.name)
      (normalize_name cxLoc.title) = 1 := by
    rw [show normalize_name cxLocal.name = "a" from by decide,
      show normalize_name cxLoc.title = "a" from by decide]
    exact name_similarity_a_a
  have hcode : (candidate_score cxLocal cxLoc).1 =
      name_similarity (normalize_name cxLocal.name) (normalize_name cxLoc.title) := by
    simp only [candidate_score]
    rw [if_neg (by decide : ¬(normalize_address cxLocal.address1 ≠ "")),
      if_neg (by decide : ¬(normalize_text cxLocal.city ≠ "" ∧
        normalize_text cxLocal.city ∈ cxLoc.cities))]
  have hclaim : claim_C6_score cxLocal cxLoc =
      name_similarity (normalize_name cxLocal.name) (normalize_name cxLoc.title)
        + 0 + 2/10 := by
    simp only [claim_C6_score]
    rw [if_neg (by decide : ¬(normalize_text cxLocal.city ≠ "" ∧
        normalize_text cxLocal.city ∈ cxLoc.cities)),
      show cxLoc.addresses.find? (claim_C6_bonus_hit
        (normalize_address cxLocal.address1) cxLocal.orig_address) = some {}
        from by decide]
    simp only [Option.elim]
    rw [if_pos (by decide : normalize_address ({} : ExtAddress).address_line1 =
        normalize_address cxLocal.address1)]
  rw [hcode, hclaim, hsim]
  norm_num

/-- Claim C6 (amended): the score computed inside `find_best_match` equals
the name-similarity ratio, plus `0.1` exactly when the normalised local
city is non-empty and in the candidate's city set, plus — only when the
normalised local line1 is non-empty — an address bonus decided by the first
address satisfying a branch (`+0.2` on exact equality of the non-empty
normalised line1s, else `+0.15` on the substring condition); the total is
not clamped and can exceed `1.0`. -/
theorem claim_C6_amended :
    (∀ (lc : LocalCourt) (loc : MassGovLocation),
      (candidate_score lc loc).1 =
        name_similarity (normalize_name lc.name) (normalize_name loc.title)
        + (if normalize_text lc.city ≠ "" ∧ normalize_text lc.city ∈ loc.cities
            then (1/10 : ℚ) else 0)
        + (if normalize_address lc.address1 ≠ "" then
            (loc.addresses.find?
              (addr_hit (normalize_address lc.address1) lc.orig_address)).elim
              (0 : ℚ)
              (fun a => if normalize_address a.address_line1 =
                normalize_address lc.address1 then 2/10 else 15/100)
          else 0)) ∧
    1 < (candidate_score exLocal exLoc).1 := by
  constructor
  · intro lc loc
    simp only [candidate_score, addr_bonus_eq_find]
    by_cases hg : normalize_address lc.address1 ≠ ""
    · rw [if_pos hg, if_pos hg]
      rcases hf : loc.addresses.find?
          (addr_hit (normalize_address lc.address1) lc.orig_address) with _ | a
      all_goals by_cases hc : normalize_text lc.city ≠ "" ∧
        normalize_text lc.city ∈ loc.cities
      all_goals simp [hc, Option.elim]
    · rw [if_neg hg, if_neg hg]
      by_cases hc : normalize_text lc.city ≠ "" ∧ normalize_text lc.city ∈ loc.cities
      all_goals simp [hc]
  · have hb : (if normalize_address exLocal.address1 ≠ "" then
        addr_bonus (normalize_address exLocal.address1) exLocal.orig_address
          exLoc.addresses
      else none) = some (2/10) := rfl
    have hsim : name_similarity (normalize_name exLocal.name)
        (normalize_name exLoc.title) = 1 := by
      rw [show normalize_name exLocal.name = "a" from by decide,
        show normalize_name exLoc.title = "a" from by decide]
      exact name_similarity_a_a
    simp only [candidate_score]
    rw [hb]
    show 1 < (if normalize_text exLocal.city ≠ "" ∧
        normalize_text exLocal.city ∈ exLoc.cities then
      name_similarity (normalize_name exLocal.name) (normalize_name exLoc.title)
        + 1/10
      else name_similarity (normalize_name exLocal.name)
        (normalize_name exLoc.title)) + 2/10
    rw [if_pos (by decide : normalize_text exLocal.city ≠ "" ∧
        normalize_text exLocal.city ∈ exLoc.cities), hsim]
    norm_num

/-! ## Claim C1 -/

/-- The local record of the spec's end-to-end example: same name as the
external location, matching city, line1 differing from the candidate's only
in the street-suffix spelling. -/
def wLocal : LocalCourt :=
  { source_file := "districtcourts.json", name := "Worcester District Court",
    city := "Worcester", state := "MA", zip := "01608",
    address1 := "225 Main Street",
    orig_address := "225 Main Street, Worcester, MA 01608" }

/-- The mass.gov address of the end-to-end example. -/
def wAddr : ExtAddress :=
  { address_line1 := "225 Main St", city := "Worcester", state := "MA",
    postal_code := "01608" }

/-- The external location of the end-to-end example. -/
def wLoc : MassGovLocation :=
  { title := "Worcester District Court", location_id := "1",
    addresses := [wAddr], cities := ["worcester"] }

set_option maxRecDepth 8000 in
theorem worcester_sim :
    name_similarity (normalize_name wLocal.name) (normalize_name wLoc.title) = 1 := by
  rw [show normalize_name wLocal.name = "worcester district" from by decide,
    show normalize_name wLoc.title = "worcester district" from by decide]
  simp only [name_similarity]
  rw [show simPair "worcester district" "worcester district" = (18, 36)
    from by decide]
  norm_num

theorem worcester_score : candidate_score wLocal wLoc = (13/10, true, true) := by
  have hb : (if normalize_address wLocal.address1 ≠ "" then
      addr_bonus (normalize_address wLocal.address1) wLocal.orig_address
        wLoc.addresses
    else none) = some (2/10) := rfl
  simp only [candidate_score]
  rw [hb]
  show ((if normalize_text wLocal.city ≠ "" ∧
        normalize_text wLocal.city ∈ wLoc.cities then
      name_similarity (normalize_name wLocal.name) (normalize_name wLoc.title)
        + 1/10
    else name_similarity (normalize_name wLocal.name) (normalize_name wLoc.title))
      + 2/10,
    true,
    decide (normalize_text wLocal.city ≠ "" ∧
      normalize_text wLocal.city ∈ wLoc.cities)) = ((13/10 : ℚ), true, true)
  rw [if_pos (by decide : normalize_text wLocal.city ≠ "" ∧
      normalize_text wLocal.city ∈ wLoc.cities), worcester_sim,
    show (decide (normalize_text wLocal.city ≠ "" ∧
      normalize_text wLocal.city ∈ wLoc.cities)) = true from by decide]
  norm_num [Prod.ext_iff]

theorem worcester_best :
    find_best_match wLocal [wLoc] = (some wLoc, 13/10, true, true) := by
  have hstep : match_step wLocal ⟨none, 0, false, false⟩ wLoc =
      ⟨some wLoc, 13/10, true, true⟩ := by
    simp only [match_step, worcester_score]
    norm_num
  simp only [find_best_match, List.foldl_cons, List.foldl_nil, hstep]
  rw [if_neg (show ¬((⟨some wLoc, 13/10, true, true⟩ : MatchState).best_score
    < 6/10) by show ¬((13/10 : ℚ) < 6/10); norm_num)]

theorem worcester_cand : candidate_locations wLocal.city [wLoc] = [wLoc] := by
  decide

theorem worcester_pipeline :
    pipeline wLocal [wLoc] = ("no_change", "local", "Address matches mass.gov") := by
  simp only [pipeline, worcester_cand, worcester_best]
  rfl

/-- Claim C1 (counterexample): for the spec's end-to-end Worcester example
the suffix-only address difference vanishes under `normalize_address`, so
the first candidate address already matches exactly, `addr_match` is set,
and `recommend_action` takes its `addr_match` branch first: the pipeline
recommends `no_change`, not `update_local_from_massgov`. -/
theorem claim_C1_counterexample :
    pipeline wLocal [wLoc] = ("no_change", "local", "Address matches mass.gov") ∧
    (pipeline wLocal [wLoc]).1 ≠ "update_local_from_massgov" := by
  refine ⟨worcester_pipeline, ?_⟩
  rw [worcester_pipeline]
  decide

/-- Claim C1 (amended): on the end-to-end Worcester example the pipeline
finds the match with score `1.3 ≥ 0.8` (name `1.0`, city `+0.1`, exact
normalised-address bonus `+0.2`) and recommends `no_change` — the
suffix-spelling-only difference counts as the address already matching, so
the `update_local_from_massgov` branch is never reached. -/
theorem claim_C1_amended :
    pipeline wLocal [wLoc] = ("no_change", "local", "Address matches mass.gov") ∧
    (find_best_match wLocal (candidate_locations wLocal.city [wLoc])).2.1
      ≥ 8/10 := by
  refine ⟨worcester_pipeline, ?_⟩
  rw [worcester_cand, worcester_best]
  show (13/10 : ℚ) ≥ 8/10
  norm_num
